import Mathlib

/-!
Verification of the nest-check reconciliation core of django-bird-colony.

The development shallowly embeds the relevant parts of the repository:
the per-day occupancy reconstruction in `birds/tools.py`
(`tabulate_locations`), the nest-check differ / commit workflow in
`birds/views.py` (`nest_check`, `PairingEntry.form_valid`), and — where the
deciding code lives in files that are not part of the provided sources
(`birds/models.py` query managers, `birds/forms.py` form validation) —
definitions modelled from the specification, each marked as such in its
doc comment.

Dates are day ordinals (`Nat`); event creation timestamps are `Nat` and
serve as the same-day tie-break the spec describes.
-/

set_option autoImplicit false

namespace BirdColony

/-- Animal sex as stored on the `Animal` model (`M` / `F` / `U`). -/
inductive Sex where
  | male
  | female
  | unknown
deriving DecidableEq, Repr

/-- An animal: identity plus the fields the reconciliation core reads. -/
structure Animal where
  aid : Nat
  sex : Sex
deriving DecidableEq, Repr

/-- An event row: attached to one animal, with a date, a creation
timestamp (tie-break for same-day events), whether its status is a
terminal/death status, and an optional location id. -/
structure Event where
  animal : Nat
  date : Nat
  created : Nat
  removes : Bool
  location : Option Nat
deriving DecidableEq, Repr

/-- A location; the `nest` flag marks locations that participate in
occupancy reconstruction. -/
structure Location where
  lid : Nat
  name : String
  nest : Bool
deriving DecidableEq, Repr

/-- Age groups derived from the birth event date and species thresholds. -/
inductive AgeGroup where
  | egg
  | chick
  | juvenile
  | adult
deriving DecidableEq, Repr

/-- Modelled from the spec: `Animal.objects.existed_on(date)` used by
`tabulate_locations` (models.py is not among the provided sources).
Spec 4.1 step 1: the set of animals alive as of `d` — at least one event
with date ≤ d and no terminal/death event with date ≤ d. -/
def existedOn (events : List Event) (a : Nat) (d : Nat) : Bool :=
  (events.any fun e => e.animal == a && decide (e.date ≤ d)) &&
    (events.all fun e => !(e.animal == a && e.removes && decide (e.date ≤ d)))

/-- Later-event test on the (date, created) order used for same-day
tie-breaks (spec section 3: events are totally ordered by date then
creation time). -/
def eventLater (old new : Event) : Bool :=
  decide (old.date < new.date) ||
    (old.date == new.date && decide (old.created < new.created))

/-- Modelled from the spec: `Event.objects.has_location().latest_by_animal()`
filtered to `date ≤ d` (models.py is not among the provided sources).
Spec 4.1 step 2: each animal's latest event with date ≤ d that carries a
location, location-less events ignored. -/
def latestLocationEvent (events : List Event) (a : Nat) (d : Nat) : Option Event :=
  (events.filter fun e =>
      e.animal == a && e.location.isSome && decide (e.date ≤ d)).foldl
    (fun acc e =>
      match acc with
      | none => some e
      | some old => if eventLater old e then some e else some old)
    none

/-- The per-day, per-location occupant computation of
`tabulate_locations` (tools.py lines 39-51): alive animals whose latest
location-bearing event on or before the report date resolves to the given
nest-flagged location. -/
def occupantsOn (events : List Event) (animals : List Animal) (d : Nat)
    (loc : Location) : List Animal :=
  animals.filter fun a =>
    existedOn events a.aid d &&
      (match latestLocationEvent events a.aid d with
       | some e => (e.location == some loc.lid) && loc.nest
       | none => false)

/-- Increment of one key of a `Counter`, keeping insertion order of keys. -/
def bumpCount (c : List (AgeGroup × Nat)) (g : AgeGroup) : List (AgeGroup × Nat) :=
  match c with
  | [] => [(g, 1)]
  | (k, n) :: rest => if k = g then (k, n + 1) :: rest else (k, n) :: bumpCount rest g

/-- Lookup in a `Counter`: 0 for a missing key, like Python `Counter[key]`. -/
def countOf (c : List (AgeGroup × Nat)) (g : AgeGroup) : Nat :=
  match c.find? (fun p => p.1 == g) with
  | some p => p.2
  | none => 0

/-- Sum of all counter values, like Python `sum(counter.values())`. -/
def totalCount (c : List (AgeGroup × Nat)) : Nat :=
  c.foldl (fun s p => s + p.2) 0

/-- One per-nest per-day record of the pivoted structure built by
`tabulate_locations` (tools.py lines 60-66): animals bucketed by age
group, plus a counter that is bumped only for non-adult groups. -/
structure LocData where
  eggs : List Animal
  chicks : List Animal
  juveniles : List Animal
  adults : List Animal
  counts : List (AgeGroup × Nat)
deriving DecidableEq, Repr

/-- The empty per-day record (`defaultdict(list)` plus empty `Counter`). -/
def LocData.empty : LocData := ⟨[], [], [], [], []⟩

/-- One step of the tabulation loop body (tools.py lines 61-65): append
the animal to its age-group bucket and bump the counter unless the group
is adult. -/
def locdataStep (ageOf : Nat → Nat → AgeGroup) (d : Nat) (ld : LocData)
    (a : Animal) : LocData :=
  match ageOf a.aid d with
  | AgeGroup.egg =>
      { ld with eggs := ld.eggs ++ [a], counts := bumpCount ld.counts AgeGroup.egg }
  | AgeGroup.chick =>
      { ld with chicks := ld.chicks ++ [a], counts := bumpCount ld.counts AgeGroup.chick }
  | AgeGroup.juvenile =>
      { ld with juveniles := ld.juveniles ++ [a],
                counts := bumpCount ld.counts AgeGroup.juvenile }
  | AgeGroup.adult => { ld with adults := ld.adults ++ [a] }

/-- Tabulation of one day's animals of one nest by age group
(tools.py lines 60-66); `ageOf` stands for `Animal.age_group(date)`,
whose thresholds live in models.py and are treated as a parameter. -/
def locdataFor (ageOf : Nat → Nat → AgeGroup) (d : Nat)
    (animals : List Animal) : LocData :=
  animals.foldl (locdataStep ageOf d) LocData.empty

/-- All animals listed in a per-day record, over all age-group buckets. -/
def LocData.allAnimals (ld : LocData) : List Animal :=
  ld.eggs ++ ld.chicks ++ ld.juveniles ++ ld.adults

/-- Insertion step for the name sort standing in for `order_by("name")`. -/
def insertSorted (le : Location → Location → Bool) (a : Location) :
    List Location → List Location
  | [] => [a]
  | b :: rest => if le a b then a :: b :: rest else b :: insertSorted le a rest

/-- Nest locations ordered by name (`Location.objects.filter(nest=True)
.order_by("name")`). -/
def nestsByName (locations : List Location) : List Location :=
  (locations.filter fun l => l.nest).foldr
    (insertSorted fun x y => (compare x.name y.name).isLE) []

/-- The inclusive day range `since .. until` walked by the tabulation
while-loop. -/
def dateRange (since untilD : Nat) : List Nat :=
  (List.range (untilD + 1 - since)).map (fun i => since + i)

/-- One entry of the pivoted `nest_data` structure: a nest location and
its per-day records, one per date of the range. -/
structure NestDays where
  location : Location
  days : List LocData
deriving DecidableEq, Repr

/-- Embedding of `tabulate_locations` (tools.py lines 20-68): per-day independent
recomputation of nest occupancy over the inclusive date range, pivoted by
nest with per-day age-group buckets and non-adult counts. -/
def tabulateLocations (ageOf : Nat → Nat → AgeGroup) (events : List Event)
    (locations : List Location) (animals : List Animal)
    (since untilD : Nat) : List Nat × List NestDays :=
  let dates := dateRange since untilD
  let nests := nestsByName locations
  (dates,
   nests.map fun nest =>
     { location := nest,
       days := dates.map fun d =>
         locdataFor ageOf d (occupantsOn events animals d nest) })

/-- A submitted or initial (egg count, chick count) pair of one nest.
The form fields are non-negative integers. -/
structure Counts where
  eggs : Nat
  chicks : Nat
deriving DecidableEq, Repr

/-- Validation errors the nest-check path can attach. -/
inductive NestErr where
  | cannotLoseChick
  | cannotHatchWithoutEgg
  | tooManyAdults
  | noSire
  | noDam
deriving DecidableEq, Repr

/-- The chick delta `delta_chicks = updated["chicks"] - initial["chicks"]`
(views.py line 412). -/
def deltaChicks (ini sub : Counts) : Int :=
  (sub.chicks : Int) - (ini.chicks : Int)

/-- The effective egg delta
`delta_eggs = updated["eggs"] - initial["eggs"] + delta_chicks`
(views.py line 413): hatching consumes an egg, so a hatch alone does not
register as an egg loss. -/
def deltaEggs (ini sub : Counts) : Int :=
  (sub.eggs : Int) - (ini.eggs : Int) + deltaChicks ini sub

/-- Modelled from the spec: the count validation of `NestCheckForm.clean`
(forms.py is not among the provided sources; the view comment says "most
of the validation logic to keep users from removing any animals is in the
form"). Spec 4.2: `delta_chicks = submitted.chicks - initial.chicks` must
be ≥ 0, else the form fails with "cannot lose a chick"; hatching draws
`delta_chicks` eggs from the prior egg set, so a submission hatching more
chicks than there were prior eggs is invalid (the "cannot hatch 2 from
1 egg" scenario, tested by `test_nest_check_cannot_hatch_without_egg`). -/
def nestCheckFormErrors (initial submitted : Counts) : List NestErr :=
  let dc : Int := deltaChicks initial submitted
  (if dc < 0 then [NestErr.cannotLoseChick] else []) ++
    (if (initial.eggs : Int) < dc then [NestErr.cannotHatchWithoutEgg] else [])

/-- The initial counts the view derives from the latest reconstructed day
(views.py lines 388-394): `eggs = counts["egg"]`,
`chicks = sum(counts.values()) - eggs`. -/
def initialCounts (ld : LocData) : Counts :=
  let total := totalCount ld.counts
  let eggs := countOf ld.counts AgeGroup.egg
  ⟨eggs, total - eggs⟩

/-- Repeated Python `list.pop()` from the end: pops `n` elements,
returning the remaining list and the popped elements in pop order
(most recently appended first); `none` models the `IndexError` of popping
an empty list. -/
def popN {α : Type} : Nat → List α → Option (List α × List α)
  | 0, l => some (l, [])
  | n + 1, l =>
    match l.getLast? with
    | none => none
    | some a =>
      match popN n l.dropLast with
      | none => none
      | some (rest, popped) => some (rest, a :: popped)

/-- The first male among the nest's adults, as resolved by
`next(animal for animal in adults if animal.sex == Animal.Sex.MALE)`
(views.py lines 422-428). -/
def findSire (adults : List Animal) : Option Animal :=
  adults.find? fun a => a.sex == Sex.male

/-- The first female among the nest's adults (views.py lines 433-440). -/
def findDam (adults : List Animal) : Option Animal :=
  adults.find? fun a => a.sex == Sex.female

/-- The per-nest occupant checks the view itself performs when the
effective egg delta is positive (views.py lines 414-444): more than two
adults, or a missing sire or dam, each attach an error. -/
def nestViewErrors (adults : List Animal) (deltaEggs : Int) : List NestErr :=
  if 0 < deltaEggs then
    if 2 < adults.length then [NestErr.tooManyAdults]
    else
      (if (findSire adults).isNone then [NestErr.noSire] else []) ++
        (if (findDam adults).isNone then [NestErr.noDam] else [])
  else []

/-- One proposed change of a nest check: the `{"status": None}` marker for
an unchanged nest, or a hatch / loss event against an existing egg, or a
new laid egg with resolved sire and dam (views.py lines 406-481). -/
inductive NestAction where
  | noChange
  | hatch (a : Animal) (loc : Nat)
  | lost (a : Animal) (loc : Nat)
  | lay (sire dam : Animal) (loc : Nat)
deriving DecidableEq, Repr

/-- Python exceptions the embedded code can raise. -/
inductive PyErr where
  | attributeError
  | indexError
  | nameError
deriving DecidableEq, Repr

/-- Outcome of processing one nest form inside the view loop. -/
inductive NestResult where
  | crashed (e : PyErr)
  | invalid (errs : List NestErr)
  | actions (acts : List NestAction)
deriving DecidableEq, Repr

/-- The per-nest body of the view loop (views.py lines 402-481), run after
the formset validated: an unchanged form contributes the single
`{"status": None}` marker; otherwise the deltas are computed
(`delta_chicks`, then `delta_eggs = raw egg delta + delta_chicks`), the
occupant checks run when the effective egg delta is positive, and on
success `delta_chicks` eggs are popped from the end of the prior egg list
as hatches, then either `-delta_eggs` further pops as losses or
`delta_eggs` laid-egg actions with the resolved sire and dam. -/
def processNest (ld : LocData) (loc : Nat) (submitted : Counts) : NestResult :=
  let ini := initialCounts ld
  if submitted.eggs == ini.eggs && submitted.chicks == ini.chicks then
    NestResult.actions [NestAction.noChange]
  else
    let dc : Int := deltaChicks ini submitted
    let de : Int := deltaEggs ini submitted
    let errs := nestViewErrors ld.adults de
    if errs = [] then
      match popN dc.toNat ld.eggs with
      | none => NestResult.crashed PyErr.indexError
      | some (remaining, hatchedEggs) =>
        let hatches := hatchedEggs.map fun a => NestAction.hatch a loc
        if de < 0 then
          match popN (-de).toNat remaining with
          | none => NestResult.crashed PyErr.indexError
          | some (_, lostEggs) =>
            NestResult.actions (hatches ++ lostEggs.map fun a => NestAction.lost a loc)
        else if de = 0 then NestResult.actions hatches
        else
          match findSire ld.adults, findDam ld.adults with
          | some s, some dm =>
            NestResult.actions
              (hatches ++ List.replicate de.toNat (NestAction.lay s dm loc))
          | _, _ => NestResult.crashed PyErr.nameError
    else NestResult.invalid errs

/-- The eggs a change list marks hatched, in proposal order. -/
def hatchAnimals (acts : List NestAction) : List Animal :=
  acts.filterMap fun act =>
    match act with
    | NestAction.hatch a _ => some a
    | _ => none

/-- The eggs a change list marks lost, in proposal order. -/
def lostAnimals (acts : List NestAction) : List Animal :=
  acts.filterMap fun act =>
    match act with
    | NestAction.lost a _ => some a
    | _ => none

/-- The number of new-egg (lay) actions a change list proposes. -/
def layCount (acts : List NestAction) : Nat :=
  (acts.filter fun act =>
    match act with
    | NestAction.lay _ _ _ => true
    | _ => false).length

/-- The adult set of a nest is exactly one male and one female. -/
def exactlyOneMaleOneFemale (adults : List Animal) : Prop :=
  (adults.filter fun a => a.sex == Sex.male).length = 1 ∧
    (adults.filter fun a => a.sex == Sex.female).length = 1 ∧
    adults.length = 2

/-- The user confirmation form of the second stage (`NestCheckUser`):
a recorder identity, a comments field, and the explicit confirmation
flag. -/
structure UserForm where
  enteredBy : Option Nat
  comments : String
  confirmed : Bool
deriving DecidableEq, Repr

/-- A row the commit stage saves to the database. -/
inductive SavedRow where
  | statusEvent (a : Animal) (loc : Nat) (date : Nat) (user : Nat)
  | newAnimal (sire dam : Animal)
  | birthEvent (loc : Nat) (date : Nat) (user : Nat)
  | nestCheckRow (user : Nat) (comments : String)
deriving DecidableEq, Repr

/-- views.py lines 494 and 506 evaluate `datetime.now()`; the file imports
the module `datetime` (line 3), not the class, so the attribute lookup
raises `AttributeError` (the working spelling used at line 381 is
`datetime.datetime.now()`). `none` models the raised exception. -/
def datetimeModuleNow : Option Nat := none

/-- The commit loop over all proposed changes (views.py lines 487-511):
hatch and loss actions each save one `Event` for the existing animal; a
lay action saves a new `Animal` (parents set to the resolved sire and
dam) and then its birth `Event`; the `{"status": None}` markers match no
status and save nothing. For the event date every branch evaluates
`datetime.now().date()`, and in the lay branch the new animal is saved
before that evaluation. Returns the rows saved before any exception,
plus the exception if one was raised. -/
def commitLoop (user : Nat) : List NestAction → List SavedRow × Option PyErr
  | [] => ([], none)
  | NestAction.noChange :: rest => commitLoop user rest
  | NestAction.hatch a loc :: rest =>
    match datetimeModuleNow with
    | none => ([], some PyErr.attributeError)
    | some d =>
      let r := commitLoop user rest
      (SavedRow.statusEvent a loc d user :: r.1, r.2)
  | NestAction.lost a loc :: rest =>
    match datetimeModuleNow with
    | none => ([], some PyErr.attributeError)
    | some d =>
      let r := commitLoop user rest
      (SavedRow.statusEvent a loc d user :: r.1, r.2)
  | NestAction.lay s dm loc :: rest =>
    match datetimeModuleNow with
    | none => ([SavedRow.newAnimal s dm], some PyErr.attributeError)
    | some d =>
      let r := commitLoop user rest
      (SavedRow.newAnimal s dm :: SavedRow.birthEvent loc d user :: r.1, r.2)

/-- The whole commit stage (views.py lines 485-515): run the commit loop
over every change of every nest, then — if no exception interrupted it —
save exactly one `NestCheck` audit row for the whole pass. -/
def commitChanges (user : Nat) (comments : String)
    (changes : List (List NestAction)) : List SavedRow × Option PyErr :=
  let r := commitLoop user changes.flatten
  match r.2 with
  | some e => (r.1, some e)
  | none => (r.1 ++ [SavedRow.nestCheckRow user comments], none)

/-- One nest of a POST submission: the latest reconstructed day record,
the nest's location id, and the submitted counts. -/
structure NestInput where
  day : LocData
  loc : Nat
  submitted : Counts
deriving DecidableEq, Repr

/-- Result of walking the nest forms in order, as the view loop does:
the loop returns at the first nest with errors, propagates a raised
exception, or collects every nest's proposed actions. -/
inductive CollectResult where
  | invalidNest (errs : List NestErr)
  | crashedAt (e : PyErr)
  | collected (changes : List (List NestAction))
deriving DecidableEq, Repr

/-- The view loop over the nest formset (views.py lines 402-481): nests
are processed in order and the first invalid nest aborts the walk. -/
def collectChanges : List NestInput → CollectResult
  | [] => CollectResult.collected []
  | n :: rest =>
    match processNest n.day n.loc n.submitted with
    | NestResult.invalid errs => CollectResult.invalidNest errs
    | NestResult.crashed e => CollectResult.crashedAt e
    | NestResult.actions acts =>
      match collectChanges rest with
      | CollectResult.collected cs => CollectResult.collected (acts :: cs)
      | r => r

/-- What a POST to the nest-check view ends in: the re-editable initial
form (either because the formset failed validation, or because a nest
failed the occupant checks), the confirmation page, a committed pass with
its saved rows, or an uncaught exception with the rows saved before it. -/
inductive PostOutcome where
  | initialFormInvalid
  | initialWithNestErrors (errs : List NestErr)
  | confirmPage (changes : List (List NestAction))
  | committed (rows : List SavedRow)
  | crashed (rows : List SavedRow) (e : PyErr)
deriving DecidableEq, Repr

/-- Modelled from the spec: validity of the `NestCheckUser` form
(forms.py is not among the provided sources). Spec 4.3: the commit
happens "on explicit confirmation (with a recorder identity attached)". -/
def userFormValid (uf : UserForm) : Bool :=
  uf.enteredBy.isSome

/-- The POST branch of the `nest_check` view (views.py lines 396-528):
if the formset fails validation nothing happens and the initial view is
re-rendered; otherwise the differ runs per nest, the first invalid nest
returns the initial view with its errors attached, and a fully valid pass
either commits (when the user form is valid and the confirmation flag is
set) or renders the confirmation page. -/
def nestCheckPost (nests : List NestInput) (uf : UserForm) : PostOutcome :=
  if nests.all fun n =>
      nestCheckFormErrors (initialCounts n.day) n.submitted = [] then
    match collectChanges nests with
    | CollectResult.invalidNest errs => PostOutcome.initialWithNestErrors errs
    | CollectResult.crashedAt e => PostOutcome.crashed [] e
    | CollectResult.collected changes =>
      if userFormValid uf && uf.confirmed then
        match uf.enteredBy with
        | some user =>
          let r := commitChanges user uf.comments changes
          match r.2 with
          | some e => PostOutcome.crashed r.1 e
          | none => PostOutcome.committed r.1
        | none => PostOutcome.confirmPage changes
      else PostOutcome.confirmPage changes
  else PostOutcome.initialFormInvalid

/-- The status name `MOVED_EVENT_NAME` looked up by the pairing views
(its value "moved" is pinned by `test_forms.py` line 539). -/
def movedEventName : String := "moved"

/-- Cleaned data of `NewPairingForm` as read by
`PairingEntry.form_valid`. -/
structure PairingData where
  sire : Animal
  dam : Animal
  began : Nat
  purpose : String
  location : Option Nat
  enteredBy : Option Nat
deriving DecidableEq, Repr

/-- A move event saved by the pairing entry view. -/
structure MoveEvent where
  animal : Animal
  date : Nat
  statusName : String
  location : Nat
  enteredBy : Nat
  description : String
deriving DecidableEq, Repr

/-- A saved `Pairing` row. -/
structure SavedPairing where
  sire : Animal
  dam : Animal
  began : Nat
  purpose : String
  ended : Option Nat
deriving DecidableEq, Repr

/-- The database and console state the pairing entry view touches. -/
structure PairingDB where
  statusNames : List String
  moveEvents : List MoveEvent
  pairings : List SavedPairing
  printed : List String
deriving DecidableEq, Repr

/-- Embedding of `PairingEntry.form_valid` (views.py lines 203-241): when a location
and a recorder are given, look up the "moved" status; if the row is
missing, print a warning and skip the two move events, otherwise save a
move event for the sire and one for the dam; in every case create and
save the `Pairing` row afterwards. -/
def pairingEntryFormValid (db : PairingDB) (data : PairingData) : PairingDB :=
  let db1 :=
    match data.location, data.enteredBy with
    | some loc, some user =>
      if db.statusNames.contains movedEventName then
        { db with
          moveEvents := db.moveEvents ++
            ([{ animal := data.sire,
                date := data.began,
                statusName := movedEventName,
                location := loc,
                enteredBy := user,
                description := "Paired with " ++ toString data.dam.aid },
              { animal := data.dam,
                date := data.began,
                statusName := movedEventName,
                location := loc,
                enteredBy := user,
                description := "Paired with " ++ toString data.sire.aid }] :
              List MoveEvent) }
      else
        { db with
          printed := db.printed ++
            ["Unable to create move events - no " ++ movedEventName ++
              " status type"] }
    | _, _ => db
  { db1 with
    pairings := db1.pairings ++
      ([{ sire := data.sire, dam := data.dam, began := data.began,
          purpose := data.purpose, ended := none }] : List SavedPairing) }

/-! ### Helper lemmas about repeated pop-from-end -/

theorem popN_eq_some {α : Type} :
    ∀ (n : Nat) (l r p : List α), popN n l = some (r, p) →
      p = l.reverse.take n ∧ r = (l.reverse.drop n).reverse ∧ n ≤ l.length := by
  intro n
  induction n with
  | zero =>
    intro l r p h
    simp only [popN, Option.some.injEq, Prod.mk.injEq] at h
    simp [← h.1, ← h.2]
  | succ n ih =>
    intro l r p h
    rcases List.eq_nil_or_concat l with rfl | ⟨xs, x, rfl⟩
    · simp [popN] at h
    · rw [List.concat_eq_append] at h ⊢
      simp only [popN, List.getLast?_concat, List.dropLast_concat] at h
      rcases hp : popN n xs with _ | ⟨r0, p0⟩
      · rw [hp] at h
        simp at h
      · rw [hp] at h
        simp only [Option.some.injEq, Prod.mk.injEq] at h
        obtain ⟨h1, h2, h3⟩ := ih xs r0 p0 hp
        refine ⟨?_, ?_, ?_⟩
        · rw [← h.2, List.reverse_append]
          simp [h1]
        · rw [← h.1, List.reverse_append]
          simp [h2]
        · simp [Nat.succ_le_succ h3]

theorem popN_of_le {α : Type} :
    ∀ (n : Nat) (l : List α), n ≤ l.length →
      popN n l = some ((l.reverse.drop n).reverse, l.reverse.take n) := by
  intro n
  induction n with
  | zero =>
    intro l _
    simp [popN]
  | succ n ih =>
    intro l hle
    rcases List.eq_nil_or_concat l with rfl | ⟨xs, x, rfl⟩
    · simp at hle
    · rw [List.concat_eq_append] at hle ⊢
      have hx : n ≤ xs.length := by
        simp at hle
        omega
      simp only [popN, List.getLast?_concat, List.dropLast_concat, ih xs hx,
        List.reverse_append]
      simp

/-! ### Helper lemmas about action measures -/

theorem hatchAnimals_append (l₁ l₂ : List NestAction) :
    hatchAnimals (l₁ ++ l₂) = hatchAnimals l₁ ++ hatchAnimals l₂ := by
  simp [hatchAnimals]

theorem lostAnimals_append (l₁ l₂ : List NestAction) :
    lostAnimals (l₁ ++ l₂) = lostAnimals l₁ ++ lostAnimals l₂ := by
  simp [lostAnimals]

theorem layCount_append (l₁ l₂ : List NestAction) :
    layCount (l₁ ++ l₂) = layCount l₁ + layCount l₂ := by
  simp [layCount]

theorem hatchAnimals_hatch_map (as : List Animal) (loc : Nat) :
    hatchAnimals (as.map fun a => NestAction.hatch a loc) = as := by
  induction as with
  | nil => simp [hatchAnimals]
  | cons a as ih => simp [hatchAnimals] at ih ⊢; exact ih

theorem hatchAnimals_lost_map (as : List Animal) (loc : Nat) :
    hatchAnimals (as.map fun a => NestAction.lost a loc) = [] := by
  induction as with
  | nil => simp [hatchAnimals]
  | cons a as ih => simp [hatchAnimals] at ih ⊢

theorem hatchAnimals_replicate_lay (n : Nat) (s dm : Animal) (loc : Nat) :
    hatchAnimals (List.replicate n (NestAction.lay s dm loc)) = [] := by
  induction n with
  | zero => simp [hatchAnimals]
  | succ n ih => simp [hatchAnimals, List.replicate_succ] at ih ⊢

theorem hatchAnimals_noChange : hatchAnimals [NestAction.noChange] = [] := by
  simp [hatchAnimals]

theorem lostAnimals_hatch_map (as : List Animal) (loc : Nat) :
    lostAnimals (as.map fun a => NestAction.hatch a loc) = [] := by
  induction as with
  | nil => simp [lostAnimals]
  | cons a as ih => simp [lostAnimals] at ih ⊢

theorem lostAnimals_lost_map (as : List Animal) (loc : Nat) :
    lostAnimals (as.map fun a => NestAction.lost a loc) = as := by
  induction as with
  | nil => simp [lostAnimals]
  | cons a as ih => simp [lostAnimals] at ih ⊢; exact ih

theorem lostAnimals_replicate_lay (n : Nat) (s dm : Animal) (loc : Nat) :
    lostAnimals (List.replicate n (NestAction.lay s dm loc)) = [] := by
  induction n with
  | zero => simp [lostAnimals]
  | succ n ih => simp [lostAnimals, List.replicate_succ] at ih ⊢

theorem lostAnimals_noChange : lostAnimals [NestAction.noChange] = [] := by
  simp [lostAnimals]

theorem layCount_hatch_map (as : List Animal) (loc : Nat) :
    layCount (as.map fun a => NestAction.hatch a loc) = 0 := by
  induction as with
  | nil => simp [layCount]
  | cons a as ih => simp [layCount] at ih ⊢

theorem layCount_lost_map (as : List Animal) (loc : Nat) :
    layCount (as.map fun a => NestAction.lost a loc) = 0 := by
  induction as with
  | nil => simp [layCount]
  | cons a as ih => simp [layCount] at ih ⊢

theorem layCount_replicate_lay (n : Nat) (s dm : Animal) (loc : Nat) :
    layCount (List.replicate n (NestAction.lay s dm loc)) = n := by
  induction n with
  | zero => simp [layCount]
  | succ n ih => simp [layCount, List.replicate_succ] at ih ⊢

theorem layCount_noChange : layCount [NestAction.noChange] = 0 := by
  simp [layCount]

/-! ### Claim theorems -/

/-- Full characterization of an accepted per-nest diff: the hatched eggs
are the last `delta_chicks` entries of the prior egg list in pop order,
the lost eggs are the next `max 0 (-delta_eggs)` entries by the same
pop-from-end rule, and the number of lay actions is
`max 0 delta_eggs`. -/
theorem processNest_actions_spec (ld : LocData) (loc : Nat) (sub : Counts)
    (acts : List NestAction)
    (hact : processNest ld loc sub = NestResult.actions acts) :
    hatchAnimals acts =
      ld.eggs.reverse.take (deltaChicks (initialCounts ld) sub).toNat ∧
    (hatchAnimals acts).length = (deltaChicks (initialCounts ld) sub).toNat ∧
    lostAnimals acts =
      (ld.eggs.reverse.drop (deltaChicks (initialCounts ld) sub).toNat).take
        (-deltaEggs (initialCounts ld) sub).toNat ∧
    (lostAnimals acts).length = (-deltaEggs (initialCounts ld) sub).toNat ∧
    layCount acts = (deltaEggs (initialCounts ld) sub).toNat := by
  simp only [processNest] at hact
  split at hact
  case isTrue hsame =>
    simp only [Bool.and_eq_true, beq_iff_eq] at hsame
    have hdc0 : deltaChicks (initialCounts ld) sub = 0 := by
      simp [deltaChicks, hsame.2]
    have hde0 : deltaEggs (initialCounts ld) sub = 0 := by
      simp [deltaEggs, hdc0, hsame.1]
    obtain rfl : [NestAction.noChange] = acts := by
      simpa using hact
    simp [hdc0, hde0, hatchAnimals_noChange, lostAnimals_noChange,
      layCount_noChange]
  case isFalse hdiff =>
    split at hact
    case isFalse => simp at hact
    case isTrue herrs =>
      rcases hpop : popN (deltaChicks (initialCounts ld) sub).toNat ld.eggs with
        _ | ⟨remaining, hatchedEggs⟩
      · rw [hpop] at hact
        simp at hact
      · rw [hpop] at hact
        obtain ⟨hp, hr, hlen⟩ :=
          popN_eq_some _ ld.eggs remaining hatchedEggs hpop
        have hhlen : hatchedEggs.length =
            (deltaChicks (initialCounts ld) sub).toNat := by
          rw [hp, List.length_take, List.length_reverse]
          omega
        have hrem : remaining.reverse =
            ld.eggs.reverse.drop (deltaChicks (initialCounts ld) sub).toNat := by
          rw [hr, List.reverse_reverse]
        simp only at hact
        split at hact
        case isTrue hneg =>
          rcases hpop2 : popN (-deltaEggs (initialCounts ld) sub).toNat
              remaining with _ | ⟨rem2, lostEggs⟩
          · rw [hpop2] at hact
            simp at hact
          · rw [hpop2] at hact
            obtain ⟨hp2, _, hlen2⟩ :=
              popN_eq_some _ remaining rem2 lostEggs hpop2
            have hllen : lostEggs.length =
                (-deltaEggs (initialCounts ld) sub).toNat := by
              rw [hp2, List.length_take, List.length_reverse]
              omega
            obtain rfl :
                ((hatchedEggs.map fun a => NestAction.hatch a loc) ++
                  lostEggs.map fun a => NestAction.lost a loc) = acts := by
              simpa using hact
            refine ⟨?_, ?_, ?_, ?_, ?_⟩
            · rw [hatchAnimals_append, hatchAnimals_hatch_map,
                hatchAnimals_lost_map, List.append_nil]
              exact hp
            · simp [hatchAnimals_append, hatchAnimals_hatch_map,
                hatchAnimals_lost_map, hhlen]
            · rw [lostAnimals_append, lostAnimals_hatch_map,
                lostAnimals_lost_map, List.nil_append, hp2, hrem]
            · simp [lostAnimals_append, lostAnimals_hatch_map,
                lostAnimals_lost_map, hllen]
            · have : deltaEggs (initialCounts ld) sub < 0 := hneg
              simp [layCount_append, layCount_hatch_map, layCount_lost_map]
              omega
        case isFalse hnonneg =>
          split at hact
          case isTrue hzero =>
            obtain rfl :
                (hatchedEggs.map fun a => NestAction.hatch a loc) = acts := by
              simpa using hact
            refine ⟨?_, ?_, ?_, ?_, ?_⟩
            · rw [hatchAnimals_hatch_map]
              exact hp
            · simp [hatchAnimals_hatch_map, hhlen]
            · simp [lostAnimals_hatch_map, hzero]
            · simp [lostAnimals_hatch_map, hzero]
            · simp [layCount_hatch_map, hzero]
          case isFalse hpos =>
            rcases hs : findSire ld.adults with _ | s <;>
              rcases hd : findDam ld.adults with _ | dm <;>
              rw [hs, hd] at hact <;> try simp at hact
            obtain rfl :
                ((hatchedEggs.map fun a => NestAction.hatch a loc) ++
                  List.replicate (deltaEggs (initialCounts ld) sub).toNat
                    (NestAction.lay s dm loc)) = acts := by
              simpa using hact
            have hdepos : 0 < deltaEggs (initialCounts ld) sub := by omega
            refine ⟨?_, ?_, ?_, ?_, ?_⟩
            · rw [hatchAnimals_append, hatchAnimals_hatch_map,
                hatchAnimals_replicate_lay, List.append_nil]
              exact hp
            · simp [hatchAnimals_append, hatchAnimals_hatch_map,
                hatchAnimals_replicate_lay, hhlen]
            · simp [lostAnimals_append, lostAnimals_hatch_map,
                lostAnimals_replicate_lay]
              omega
            · simp [lostAnimals_append, lostAnimals_hatch_map,
                lostAnimals_replicate_lay]
              omega
            · simp [layCount_append, layCount_hatch_map,
                layCount_replicate_lay]

/-- A valid form bounds the chick delta: non-negative and at most the
prior egg count. -/
theorem form_valid_bounds (ini sub : Counts)
    (h : nestCheckFormErrors ini sub = []) :
    0 ≤ deltaChicks ini sub ∧ deltaChicks ini sub ≤ (ini.eggs : Int) := by
  have h1 : ¬(deltaChicks ini sub < 0) := by
    intro hlt
    simp [nestCheckFormErrors, hlt] at h
  have h2 : ¬((ini.eggs : Int) < deltaChicks ini sub) := by
    intro hlt
    simp [nestCheckFormErrors, hlt] at h
  omega

/-- With a positive effective egg delta, the occupant checks pass exactly
when at most two adults are present and both a sire and a dam are
found. -/
theorem nestViewErrors_eq_nil_iff (adults : List Animal) (de : Int)
    (hde : 0 < de) :
    nestViewErrors adults de = [] ↔
      (adults.length ≤ 2 ∧ (findSire adults).isSome ∧
        (findDam adults).isSome) := by
  simp only [nestViewErrors, if_pos hde]
  by_cases h2 : 2 < adults.length
  · rw [if_pos h2]
    constructor
    · intro h
      simp at h
    · rintro ⟨hle, -, -⟩
      omega
  · rw [if_neg h2]
    have hle : adults.length ≤ 2 := Nat.le_of_not_lt h2
    rcases hsire : findSire adults with _ | s <;>
      rcases hdam : findDam adults with _ | dm <;> simp [hle]

/-- The boolean equality on `Sex` agrees with decidable equality. -/
theorem sex_beq_eq_decide (x y : Sex) : (x == y) = decide (x = y) := rfl

/-- At most two adults with a sire and a dam found is the same as the
adult set being exactly one male and one female. -/
theorem one_pair_iff (l : List Animal) :
    (l.length ≤ 2 ∧ (findSire l).isSome ∧ (findDam l).isSome) ↔
      exactlyOneMaleOneFemale l := by
  rcases l with _ | ⟨a, _ | ⟨b, _ | ⟨c, rest⟩⟩⟩
  · simp [findSire, findDam, exactlyOneMaleOneFemale]
  · cases ha : a.sex <;>
      simp [findSire, findDam, exactlyOneMaleOneFemale, List.find?,
        List.filter, ha, sex_beq_eq_decide]
  · cases ha : a.sex <;> cases hb : b.sex <;>
      simp [findSire, findDam, exactlyOneMaleOneFemale, List.find?,
        List.filter, ha, hb, sex_beq_eq_decide]
  · constructor
    · rintro ⟨h, -, -⟩
      simp at h
    · rintro ⟨-, -, h⟩
      simp at h

/-- A changed submission whose occupant checks fail is rejected with
exactly those errors. -/
theorem processNest_changed_invalid (ld : LocData) (loc : Nat) (sub : Counts)
    (hch : ¬((sub.eggs == (initialCounts ld).eggs &&
        sub.chicks == (initialCounts ld).chicks) = true))
    (hne : nestViewErrors ld.adults (deltaEggs (initialCounts ld) sub) ≠ []) :
    processNest ld loc sub =
      NestResult.invalid
        (nestViewErrors ld.adults (deltaEggs (initialCounts ld) sub)) := by
  simp only [processNest]
  rw [if_neg hch, if_neg hne]

/-- A changed submission whose occupant checks pass is never rejected. -/
theorem processNest_changed_not_invalid (ld : LocData) (loc : Nat)
    (sub : Counts)
    (hch : ¬((sub.eggs == (initialCounts ld).eggs &&
        sub.chicks == (initialCounts ld).chicks) = true))
    (hnil : nestViewErrors ld.adults (deltaEggs (initialCounts ld) sub) = []) :
    ∀ errs, processNest ld loc sub ≠ NestResult.invalid errs := by
  intro errs
  simp only [processNest]
  rw [if_neg hch, if_pos hnil]
  split
  · simp
  · split
    · split <;> simp
    · split
      · simp
      · split <;> simp

/-- An unchanged submission is accepted with the single no-change
marker. -/
theorem processNest_unchanged (ld : LocData) (loc : Nat) (sub : Counts)
    (hch : (sub.eggs == (initialCounts ld).eggs &&
        sub.chicks == (initialCounts ld).chicks) = true) :
    processNest ld loc sub = NestResult.actions [NestAction.noChange] := by
  simp only [processNest]
  rw [if_pos hch]

/-- Under a valid form and the counter invariant of the reconstruction,
the per-nest differ never raises: the pops stay within the prior egg
list and the sire and dam are resolved before they are referenced. -/
theorem processNest_not_crashed (ld : LocData) (loc : Nat) (sub : Counts)
    (hform : nestCheckFormErrors (initialCounts ld) sub = [])
    (hcnt : (initialCounts ld).eggs = ld.eggs.length) :
    ∀ e, processNest ld loc sub ≠ NestResult.crashed e := by
  intro e
  obtain ⟨hdc0, hdcle⟩ := form_valid_bounds _ _ hform
  simp only [processNest]
  split
  · simp
  · split
    case isFalse => simp
    case isTrue herrs =>
      have hdcn : (deltaChicks (initialCounts ld) sub).toNat ≤
          ld.eggs.length := by
        omega
      rw [popN_of_le _ _ hdcn]
      simp only
      split
      case isTrue hneg =>
        have hrl : ((ld.eggs.reverse.drop
            (deltaChicks (initialCounts ld) sub).toNat).reverse).length =
            ld.eggs.length - (deltaChicks (initialCounts ld) sub).toNat := by
          simp
        have hlen2 : (-deltaEggs (initialCounts ld) sub).toNat ≤
            ((ld.eggs.reverse.drop
              (deltaChicks (initialCounts ld) sub).toNat).reverse).length := by
          rw [hrl]
          simp only [deltaEggs, deltaChicks] at *
          omega
        rw [popN_of_le _ _ hlen2]
        simp
      case isFalse hnonneg =>
        split
        · simp
        · have hde : 0 < deltaEggs (initialCounts ld) sub := by omega
          obtain ⟨-, hs, hd⟩ :=
            (nestViewErrors_eq_nil_iff ld.adults _ hde).mp herrs
          rcases hsire : findSire ld.adults with _ | s
          · rw [hsire] at hs
            simp at hs
          · rcases hdam : findDam ld.adults with _ | dm
            · rw [hdam] at hd
              simp at hd
            · simp

/-- C1: for every nest submission with non-negative chick delta that the
differ accepts, the effective egg delta is `(eggs_sub - eggs_ini) +
delta_chicks`, and the proposed changes contain exactly `delta_chicks`
hatch actions, exactly `max 0 (-delta_eggs)` loss actions and exactly
`max 0 delta_eggs` lay actions. -/
theorem nest_differ_action_counts (ld : LocData) (loc : Nat) (sub : Counts)
    (acts : List NestAction)
    (hdc : 0 ≤ deltaChicks (initialCounts ld) sub)
    (hact : processNest ld loc sub = NestResult.actions acts) :
    deltaEggs (initialCounts ld) sub =
      ((sub.eggs : Int) - ((initialCounts ld).eggs : Int)) +
        deltaChicks (initialCounts ld) sub ∧
    (hatchAnimals acts).length = (deltaChicks (initialCounts ld) sub).toNat ∧
    (lostAnimals acts).length = (-deltaEggs (initialCounts ld) sub).toNat ∧
    layCount acts = (deltaEggs (initialCounts ld) sub).toNat := by
  obtain ⟨_, h2, _, h4, h5⟩ := processNest_actions_spec ld loc sub acts hact
  exact ⟨rfl, h2, h4, h5⟩

/-- Witness for the C1 theorem: the claim's own scenario — prior
one egg, no chicks; submitted no eggs, one chick — yields one hatch
action, zero loss actions and zero lay actions. -/
theorem nest_differ_action_counts_witness :
    0 ≤ deltaChicks
        (initialCounts ⟨[⟨10, Sex.unknown⟩], [], [], [], [(AgeGroup.egg, 1)]⟩)
        ⟨0, 1⟩ ∧
    deltaChicks
        (initialCounts ⟨[⟨10, Sex.unknown⟩], [], [], [], [(AgeGroup.egg, 1)]⟩)
        ⟨0, 1⟩ = 1 ∧
    deltaEggs
        (initialCounts ⟨[⟨10, Sex.unknown⟩], [], [], [], [(AgeGroup.egg, 1)]⟩)
        ⟨0, 1⟩ = 0 ∧
    processNest ⟨[⟨10, Sex.unknown⟩], [], [], [], [(AgeGroup.egg, 1)]⟩ 5 ⟨0, 1⟩ =
      NestResult.actions [NestAction.hatch ⟨10, Sex.unknown⟩ 5] ∧
    ((hatchAnimals [NestAction.hatch ⟨10, Sex.unknown⟩ 5]).length =
        (deltaChicks
          (initialCounts ⟨[⟨10, Sex.unknown⟩], [], [], [], [(AgeGroup.egg, 1)]⟩)
          ⟨0, 1⟩).toNat ∧
      (lostAnimals [NestAction.hatch ⟨10, Sex.unknown⟩ 5]).length =
        (-deltaEggs
          (initialCounts ⟨[⟨10, Sex.unknown⟩], [], [], [], [(AgeGroup.egg, 1)]⟩)
          ⟨0, 1⟩).toNat ∧
      layCount [NestAction.hatch ⟨10, Sex.unknown⟩ 5] =
        (deltaEggs
          (initialCounts ⟨[⟨10, Sex.unknown⟩], [], [], [], [(AgeGroup.egg, 1)]⟩)
          ⟨0, 1⟩).toNat) :=
  ⟨by decide, by decide, by decide, by decide,
   (nest_differ_action_counts
      ⟨[⟨10, Sex.unknown⟩], [], [], [], [(AgeGroup.egg, 1)]⟩ 5 ⟨0, 1⟩
      [NestAction.hatch ⟨10, Sex.unknown⟩ 5] (by decide) (by decide)).2⟩

/-- C2: for every changed nest submission with a positive effective egg
delta, the differ validates exactly when the nest's reconstructed adult
set is exactly one male and one female; more than two adults fail with
the too-many-adults error; with at most two adults, a missing male
attaches the no-sire error and a missing female the no-dam error. -/
theorem lay_requires_single_sire_dam (ld : LocData) (loc : Nat) (sub : Counts)
    (hch : ¬(sub.eggs = (initialCounts ld).eggs ∧
        sub.chicks = (initialCounts ld).chicks))
    (hde : 0 < deltaEggs (initialCounts ld) sub) :
    ((∃ errs, processNest ld loc sub = NestResult.invalid errs) ↔
      ¬ exactlyOneMaleOneFemale ld.adults) ∧
    (2 < ld.adults.length →
      processNest ld loc sub = NestResult.invalid [NestErr.tooManyAdults]) ∧
    (ld.adults.length ≤ 2 → findSire ld.adults = none →
      ∃ errs, processNest ld loc sub = NestResult.invalid errs ∧
        NestErr.noSire ∈ errs) ∧
    (ld.adults.length ≤ 2 → findDam ld.adults = none →
      ∃ errs, processNest ld loc sub = NestResult.invalid errs ∧
        NestErr.noDam ∈ errs) := by
  have hchb : ¬((sub.eggs == (initialCounts ld).eggs &&
      sub.chicks == (initialCounts ld).chicks) = true) := by
    simpa [Bool.and_eq_true] using hch
  refine ⟨?_, ?_, ?_, ?_⟩
  · constructor
    · rintro ⟨errs, he⟩ hone
      have hnil : nestViewErrors ld.adults
          (deltaEggs (initialCounts ld) sub) = [] :=
        (nestViewErrors_eq_nil_iff _ _ hde).mpr ((one_pair_iff _).mpr hone)
      exact processNest_changed_not_invalid ld loc sub hchb hnil errs he
    · intro hnot
      have hne : nestViewErrors ld.adults
          (deltaEggs (initialCounts ld) sub) ≠ [] := by
        intro hnil
        exact hnot
          ((one_pair_iff _).mp ((nestViewErrors_eq_nil_iff _ _ hde).mp hnil))
      exact ⟨_, processNest_changed_invalid ld loc sub hchb hne⟩
  · intro h2
    have hv : nestViewErrors ld.adults (deltaEggs (initialCounts ld) sub) =
        [NestErr.tooManyAdults] := by
      simp [nestViewErrors, hde, h2]
    have := processNest_changed_invalid ld loc sub hchb (by rw [hv]; simp)
    rwa [hv] at this
  · intro hle hsire
    have hv : NestErr.noSire ∈
        nestViewErrors ld.adults (deltaEggs (initialCounts ld) sub) := by
      simp [nestViewErrors, hde, Nat.not_lt.mpr hle, hsire]
    refine ⟨_, processNest_changed_invalid ld loc sub hchb ?_, hv⟩
    intro hnil
    rw [hnil] at hv
    simp at hv
  · intro hle hdam
    have hv : NestErr.noDam ∈
        nestViewErrors ld.adults (deltaEggs (initialCounts ld) sub) := by
      simp [nestViewErrors, hde, Nat.not_lt.mpr hle, hdam]
    refine ⟨_, processNest_changed_invalid ld loc sub hchb ?_, hv⟩
    intro hnil
    rw [hnil] at hv
    simp at hv

/-- Witness for the C2 theorem: a nest with exactly one adult male and
one adult female, one new egg submitted, is not rejected. -/
theorem lay_requires_single_sire_dam_witness :
    ¬∃ errs,
      processNest ⟨[], [], [], [⟨1, Sex.male⟩, ⟨2, Sex.female⟩], []⟩ 5 ⟨1, 0⟩ =
        NestResult.invalid errs := by
  have h :=
    (lay_requires_single_sire_dam
      ⟨[], [], [], [⟨1, Sex.male⟩, ⟨2, Sex.female⟩], []⟩ 5 ⟨1, 0⟩
      (by decide) (by decide)).1
  intro hex
  exact (h.mp hex) (by constructor <;> simp)

/-- C5: the eggs a validated submission marks hatched are the last
`delta_chicks` entries of the prior-day egg list, most recently added
first (pop from the end), and the eggs marked lost are selected by the
same pop-from-end rule after the hatched eggs have been removed. -/
theorem hatch_loss_pop_from_end (ld : LocData) (loc : Nat) (sub : Counts)
    (acts : List NestAction)
    (hact : processNest ld loc sub = NestResult.actions acts) :
    hatchAnimals acts =
      ld.eggs.reverse.take (deltaChicks (initialCounts ld) sub).toNat ∧
    lostAnimals acts =
      (ld.eggs.reverse.drop (deltaChicks (initialCounts ld) sub).toNat).take
        (-deltaEggs (initialCounts ld) sub).toNat := by
  obtain ⟨h1, -, h3, -, -⟩ := processNest_actions_spec ld loc sub acts hact
  exact ⟨h1, h3⟩

/-- Witness for the C5 theorem: with prior eggs [1, 2] and a submission
hatching one and losing one, egg 2 (most recently added) hatches and
egg 1 is lost. -/
theorem hatch_loss_pop_from_end_witness :
    processNest ⟨[⟨1, Sex.unknown⟩, ⟨2, Sex.unknown⟩], [], [], [],
        [(AgeGroup.egg, 2)]⟩ 5 ⟨0, 1⟩ =
      NestResult.actions
        [NestAction.hatch ⟨2, Sex.unknown⟩ 5,
         NestAction.lost ⟨1, Sex.unknown⟩ 5] ∧
    (hatchAnimals
        [NestAction.hatch ⟨2, Sex.unknown⟩ 5,
         NestAction.lost ⟨1, Sex.unknown⟩ 5] =
      ([⟨1, Sex.unknown⟩, ⟨2, Sex.unknown⟩] :
          List Animal).reverse.take
        (deltaChicks
          (initialCounts ⟨[⟨1, Sex.unknown⟩, ⟨2, Sex.unknown⟩], [], [], [],
            [(AgeGroup.egg, 2)]⟩) ⟨0, 1⟩).toNat ∧
    lostAnimals
        [NestAction.hatch ⟨2, Sex.unknown⟩ 5,
         NestAction.lost ⟨1, Sex.unknown⟩ 5] =
      (([⟨1, Sex.unknown⟩, ⟨2, Sex.unknown⟩] :
          List Animal).reverse.drop
        (deltaChicks
          (initialCounts ⟨[⟨1, Sex.unknown⟩, ⟨2, Sex.unknown⟩], [], [], [],
            [(AgeGroup.egg, 2)]⟩) ⟨0, 1⟩).toNat).take
        (-deltaEggs
          (initialCounts ⟨[⟨1, Sex.unknown⟩, ⟨2, Sex.unknown⟩], [], [], [],
            [(AgeGroup.egg, 2)]⟩) ⟨0, 1⟩).toNat) :=
  ⟨by decide,
   hatch_loss_pop_from_end
     ⟨[⟨1, Sex.unknown⟩, ⟨2, Sex.unknown⟩], [], [], [], [(AgeGroup.egg, 2)]⟩
     5 ⟨0, 1⟩
     [NestAction.hatch ⟨2, Sex.unknown⟩ 5, NestAction.lost ⟨1, Sex.unknown⟩ 5]
     (by decide)⟩

/-- C6: under a valid form and the counter invariant of the
reconstruction, the differ never pops an empty egg list, every hatched or
lost egg comes from the nest's tracked prior egg set, and the number of
hatched plus lost eggs never exceeds the prior egg count. -/
theorem hatch_loss_within_prior_eggs (ld : LocData) (loc : Nat) (sub : Counts)
    (hform : nestCheckFormErrors (initialCounts ld) sub = [])
    (hcnt : (initialCounts ld).eggs = ld.eggs.length) :
    (∀ e, processNest ld loc sub ≠ NestResult.crashed e) ∧
    ∀ acts, processNest ld loc sub = NestResult.actions acts →
      (∀ a ∈ hatchAnimals acts, a ∈ ld.eggs) ∧
      (∀ a ∈ lostAnimals acts, a ∈ ld.eggs) ∧
      (hatchAnimals acts).length + (lostAnimals acts).length ≤
        (initialCounts ld).eggs := by
  refine ⟨processNest_not_crashed ld loc sub hform hcnt, ?_⟩
  intro acts hact
  obtain ⟨h1, h2, h3, h4, -⟩ := processNest_actions_spec ld loc sub acts hact
  obtain ⟨hdc0, hdcle⟩ := form_valid_bounds _ _ hform
  refine ⟨?_, ?_, ?_⟩
  · intro a ha
    rw [h1] at ha
    exact List.mem_reverse.mp (List.mem_of_mem_take ha)
  · intro a ha
    rw [h3] at ha
    exact List.mem_reverse.mp (List.mem_of_mem_drop (List.mem_of_mem_take ha))
  · rw [h2, h4]
    simp only [deltaChicks, deltaEggs] at *
    omega

/-- Witness for the C6 theorem: prior two eggs, one hatched — the pops
stay within the egg list and hatched plus lost is at most two. -/
theorem hatch_loss_within_prior_eggs_witness :
    nestCheckFormErrors
      (initialCounts ⟨[⟨1, Sex.unknown⟩, ⟨2, Sex.unknown⟩], [], [], [],
        [(AgeGroup.egg, 2)]⟩) ⟨0, 1⟩ = [] ∧
    (initialCounts ⟨[⟨1, Sex.unknown⟩, ⟨2, Sex.unknown⟩], [], [], [],
        [(AgeGroup.egg, 2)]⟩).eggs =
      ([⟨1, Sex.unknown⟩, ⟨2, Sex.unknown⟩] : List Animal).length ∧
    ((∀ e, processNest ⟨[⟨1, Sex.unknown⟩, ⟨2, Sex.unknown⟩], [], [], [],
        [(AgeGroup.egg, 2)]⟩ 5 ⟨0, 1⟩ ≠ NestResult.crashed e) ∧
      ∀ acts, processNest ⟨[⟨1, Sex.unknown⟩, ⟨2, Sex.unknown⟩], [], [], [],
          [(AgeGroup.egg, 2)]⟩ 5 ⟨0, 1⟩ = NestResult.actions acts →
        (∀ a ∈ hatchAnimals acts,
          a ∈ ([⟨1, Sex.unknown⟩, ⟨2, Sex.unknown⟩] : List Animal)) ∧
        (∀ a ∈ lostAnimals acts,
          a ∈ ([⟨1, Sex.unknown⟩, ⟨2, Sex.unknown⟩] : List Animal)) ∧
        (hatchAnimals acts).length + (lostAnimals acts).length ≤
          (initialCounts ⟨[⟨1, Sex.unknown⟩, ⟨2, Sex.unknown⟩], [], [], [],
            [(AgeGroup.egg, 2)]⟩).eggs) :=
  ⟨by decide, by decide,
   hatch_loss_within_prior_eggs
     ⟨[⟨1, Sex.unknown⟩, ⟨2, Sex.unknown⟩], [], [], [], [(AgeGroup.egg, 2)]⟩
     5 ⟨0, 1⟩ (by decide) (by decide)⟩

/-! ### Helper lemmas about the tabulation counters -/

/-- The boolean equality on `AgeGroup` agrees with decidable equality. -/
theorem age_beq_eq_decide (x y : AgeGroup) : (x == y) = decide (x = y) := rfl

/-- Counter lookup on a cons cell. -/
theorem countOf_cons (k : AgeGroup) (n : Nat) (c : List (AgeGroup × Nat))
    (g : AgeGroup) :
    countOf ((k, n) :: c) g = if k = g then n else countOf c g := by
  by_cases hk : k = g <;> simp [countOf, List.find?, age_beq_eq_decide, hk]

/-- Counter total on a cons cell. -/
theorem totalCount_cons (p : AgeGroup × Nat) (c : List (AgeGroup × Nat)) :
    totalCount (p :: c) = p.2 + totalCount c := by
  have aux : ∀ (c : List (AgeGroup × Nat)) (s : Nat),
      c.foldl (fun s q => s + q.2) s = s + c.foldl (fun s q => s + q.2) 0 := by
    intro c
    induction c with
    | nil => intro s; simp
    | cons q rest ih =>
      intro s
      simp only [List.foldl_cons]
      rw [ih (s + q.2), ih (0 + q.2)]
      omega
  simp only [totalCount, List.foldl_cons]
  rw [aux]
  omega

/-- Bumping a key increments its count. -/
theorem countOf_bumpCount_self (c : List (AgeGroup × Nat)) (g : AgeGroup) :
    countOf (bumpCount c g) g = countOf c g + 1 := by
  induction c with
  | nil => simp [bumpCount, countOf_cons, countOf]
  | cons p rest ih =>
    obtain ⟨k, n⟩ := p
    by_cases hk : k = g
    · subst hk
      simp [bumpCount, countOf_cons]
    · simp [bumpCount, hk, countOf_cons, ih]

/-- Bumping a key leaves the other counts unchanged. -/
theorem countOf_bumpCount_ne (c : List (AgeGroup × Nat)) (g g' : AgeGroup)
    (h : g' ≠ g) : countOf (bumpCount c g) g' = countOf c g' := by
  induction c with
  | nil => simp [bumpCount, countOf_cons, countOf, Ne.symm h]
  | cons p rest ih =>
    obtain ⟨k, n⟩ := p
    by_cases hk : k = g
    · subst hk
      simp [bumpCount, countOf_cons, Ne.symm h]
    · simp [bumpCount, hk, countOf_cons, ih]

/-- Bumping a key increments the counter total. -/
theorem totalCount_bumpCount (c : List (AgeGroup × Nat)) (g : AgeGroup) :
    totalCount (bumpCount c g) = totalCount c + 1 := by
  induction c with
  | nil => simp [bumpCount, totalCount_cons, totalCount]
  | cons p rest ih =>
    obtain ⟨k, n⟩ := p
    by_cases hk : k = g
    · subst hk
      simp [bumpCount, totalCount_cons]
      omega
    · simp [bumpCount, hk, totalCount_cons, ih]
      omega

/-- Full characterization of the per-day tabulation fold: every age-group
bucket collects its animals in order, the counter tracks the bucket sizes
of the non-adult groups, adults are never counted, and the counter total
is the number of non-adult animals. -/
theorem locdataFold_spec (ageOf : Nat → Nat → AgeGroup) (d : Nat) :
    ∀ (as : List Animal) (acc : LocData),
      (as.foldl (locdataStep ageOf d) acc).eggs =
        acc.eggs ++ as.filter (fun a => ageOf a.aid d == AgeGroup.egg) ∧
      (as.foldl (locdataStep ageOf d) acc).chicks =
        acc.chicks ++ as.filter (fun a => ageOf a.aid d == AgeGroup.chick) ∧
      (as.foldl (locdataStep ageOf d) acc).juveniles =
        acc.juveniles ++
          as.filter (fun a => ageOf a.aid d == AgeGroup.juvenile) ∧
      (as.foldl (locdataStep ageOf d) acc).adults =
        acc.adults ++ as.filter (fun a => ageOf a.aid d == AgeGroup.adult) ∧
      countOf (as.foldl (locdataStep ageOf d) acc).counts AgeGroup.egg =
        countOf acc.counts AgeGroup.egg +
          (as.filter (fun a => ageOf a.aid d == AgeGroup.egg)).length ∧
      countOf (as.foldl (locdataStep ageOf d) acc).counts AgeGroup.chick =
        countOf acc.counts AgeGroup.chick +
          (as.filter (fun a => ageOf a.aid d == AgeGroup.chick)).length ∧
      countOf (as.foldl (locdataStep ageOf d) acc).counts AgeGroup.juvenile =
        countOf acc.counts AgeGroup.juvenile +
          (as.filter (fun a => ageOf a.aid d == AgeGroup.juvenile)).length ∧
      countOf (as.foldl (locdataStep ageOf d) acc).counts AgeGroup.adult =
        countOf acc.counts AgeGroup.adult ∧
      totalCount (as.foldl (locdataStep ageOf d) acc).counts =
        totalCount acc.counts +
          (as.filter (fun a => !(ageOf a.aid d == AgeGroup.adult))).length := by
  intro as
  induction as with
  | nil => intro acc; simp
  | cons a rest ih =>
    intro acc
    obtain ⟨i1, i2, i3, i4, i5, i6, i7, i8, i9⟩ := ih (locdataStep ageOf d acc a)
    simp only [List.foldl_cons]
    cases hg : ageOf a.aid d <;>
      simp only [locdataStep, hg] at i1 i2 i3 i4 i5 i6 i7 i8 i9 ⊢ <;>
      simp [List.filter_cons, hg, age_beq_eq_decide, i1, i2, i3, i4, i5, i6,
        i7, i8, i9, countOf_bumpCount_self, countOf_bumpCount_ne,
        totalCount_bumpCount] <;>
      omega

/-- Length of the non-adult filter split by age group. -/
theorem filter_nonadult_length (ageOf : Nat → Nat → AgeGroup) (d : Nat)
    (as : List Animal) :
    (as.filter (fun a => !(ageOf a.aid d == AgeGroup.adult))).length =
      (as.filter (fun a => ageOf a.aid d == AgeGroup.egg)).length +
        (as.filter (fun a => ageOf a.aid d == AgeGroup.chick)).length +
        (as.filter (fun a => ageOf a.aid d == AgeGroup.juvenile)).length := by
  induction as with
  | nil => simp
  | cons a rest ih =>
    cases hg : ageOf a.aid d <;>
      simp [List.filter_cons, hg, age_beq_eq_decide] at ih ⊢ <;> omega

/-- C10: in every per-day record the counter counts only non-adult age
groups — the adult count is zero and each non-adult count equals its
bucket size, while adults are still listed in their bucket — so the
pre-filled initial values are eggs = counts["egg"] and chicks = total
non-adult count minus eggs, that is chicks plus juveniles, with adults
excluded entirely. -/
theorem counts_exclude_adults (ageOf : Nat → Nat → AgeGroup) (d : Nat)
    (as : List Animal) :
    countOf (locdataFor ageOf d as).counts AgeGroup.adult = 0 ∧
    countOf (locdataFor ageOf d as).counts AgeGroup.egg =
      (locdataFor ageOf d as).eggs.length ∧
    countOf (locdataFor ageOf d as).counts AgeGroup.chick =
      (locdataFor ageOf d as).chicks.length ∧
    countOf (locdataFor ageOf d as).counts AgeGroup.juvenile =
      (locdataFor ageOf d as).juveniles.length ∧
    (locdataFor ageOf d as).adults =
      as.filter (fun a => ageOf a.aid d == AgeGroup.adult) ∧
    totalCount (locdataFor ageOf d as).counts =
      (locdataFor ageOf d as).eggs.length +
        (locdataFor ageOf d as).chicks.length +
        (locdataFor ageOf d as).juveniles.length ∧
    initialCounts (locdataFor ageOf d as) =
      ⟨(locdataFor ageOf d as).eggs.length,
        (locdataFor ageOf d as).chicks.length +
          (locdataFor ageOf d as).juveniles.length⟩ := by
  obtain ⟨i1, i2, i3, i4, i5, i6, i7, i8, i9⟩ :=
    locdataFold_spec ageOf d as LocData.empty
  rw [show LocData.empty.eggs = ([] : List Animal) from rfl,
    List.nil_append] at i1
  rw [show LocData.empty.chicks = ([] : List Animal) from rfl,
    List.nil_append] at i2
  rw [show LocData.empty.juveniles = ([] : List Animal) from rfl,
    List.nil_append] at i3
  rw [show LocData.empty.adults = ([] : List Animal) from rfl,
    List.nil_append] at i4
  have hc0 : ∀ g, countOf (LocData.empty).counts g = 0 := by
    intro g
    simp [LocData.empty, countOf]
  have ht0 : totalCount (LocData.empty).counts = 0 := by
    simp [LocData.empty, totalCount]
  rw [hc0, Nat.zero_add] at i5 i6 i7
  rw [hc0] at i8
  rw [ht0, Nat.zero_add] at i9
  simp only [locdataFor]
  refine ⟨i8, ?_, ?_, ?_, i4, ?_, ?_⟩
  · rw [i5, i1]
  · rw [i6, i2]
  · rw [i7, i3]
  · rw [i9, i1, i2, i3, filter_nonadult_length]
  · simp only [initialCounts, Counts.mk.injEq]
    constructor
    · rw [i5, i1]
    · rw [i9, i5, i2, i3, filter_nonadult_length]
      omega

/-- Every animal listed in a tabulated per-day record came from the
day's occupant list. -/
theorem locdataFor_allAnimals_mem (ageOf : Nat → Nat → AgeGroup) (d : Nat)
    (as : List Animal) (a : Animal)
    (ha : a ∈ (locdataFor ageOf d as).allAnimals) : a ∈ as := by
  obtain ⟨i1, i2, i3, i4, -, -, -, -, -⟩ :=
    locdataFold_spec ageOf d as LocData.empty
  rw [show LocData.empty.eggs = ([] : List Animal) from rfl,
    List.nil_append] at i1
  rw [show LocData.empty.chicks = ([] : List Animal) from rfl,
    List.nil_append] at i2
  rw [show LocData.empty.juveniles = ([] : List Animal) from rfl,
    List.nil_append] at i3
  rw [show LocData.empty.adults = ([] : List Animal) from rfl,
    List.nil_append] at i4
  simp only [LocData.allAnimals, locdataFor] at ha
  rw [i1, i2, i3, i4] at ha
  simp only [List.mem_append] at ha
  rcases ha with ((h | h) | h) | h <;> exact (List.mem_filter.mp h).1

/-- Every occupant the reconstruction lists for a day is alive that day —
in particular it has no terminal event on or before the day — and its
latest location-bearing event resolves to the given nest-flagged
location. -/
theorem occupantsOn_spec (events : List Event) (animals : List Animal)
    (d : Nat) (loc : Location) (a : Animal)
    (ha : a ∈ occupantsOn events animals d loc) :
    a ∈ animals ∧ existedOn events a.aid d = true ∧
      (∀ e ∈ events, e.animal = a.aid → e.removes = true → ¬ e.date ≤ d) ∧
      ∃ le, latestLocationEvent events a.aid d = some le ∧
        le.location = some loc.lid ∧ loc.nest = true := by
  obtain ⟨hmem, hcond⟩ := List.mem_filter.mp ha
  simp only [Bool.and_eq_true] at hcond
  obtain ⟨hex, hloc⟩ := hcond
  refine ⟨hmem, hex, ?_, ?_⟩
  · intro e he hanim hrem hdate
    simp only [existedOn, Bool.and_eq_true, List.all_eq_true] at hex
    have h2 := hex.2 e he
    simp [hanim, hrem, hdate] at h2
  · rcases hle : latestLocationEvent events a.aid d with _ | le
    · rw [hle] at hloc
      simp at hloc
    · rw [hle] at hloc
      simp only [Bool.and_eq_true, beq_iff_eq] at hloc
      exact ⟨le, rfl, hloc.1, hloc.2⟩

/-- C4: every animal appearing in the day-i record of a nest in the
tabulation output is alive as of that day — so no animal with a terminal
event dated on or before the day appears — and its latest
location-bearing event on or before the day resolves to that nest-flagged
location. -/
theorem occupancy_excludes_dead (ageOf : Nat → Nat → AgeGroup)
    (events : List Event) (locations : List Location) (animals : List Animal)
    (since untilD : Nat) (nd : NestDays)
    (hnd : nd ∈ (tabulateLocations ageOf events locations animals
      since untilD).2)
    (i : Nat) (hi : i < nd.days.length) (a : Animal)
    (ha : a ∈ (nd.days.get ⟨i, hi⟩).allAnimals) :
    ∃ hd : i < (dateRange since untilD).length,
      a ∈ animals ∧
      existedOn events a.aid ((dateRange since untilD).get ⟨i, hd⟩) = true ∧
      (∀ e ∈ events, e.animal = a.aid → e.removes = true →
        ¬ e.date ≤ (dateRange since untilD).get ⟨i, hd⟩) ∧
      ∃ le, latestLocationEvent events a.aid
          ((dateRange since untilD).get ⟨i, hd⟩) = some le ∧
        le.location = some nd.location.lid ∧ nd.location.nest = true := by
  simp only [tabulateLocations, List.mem_map] at hnd
  obtain ⟨nest, hnest, hfn⟩ := hnd
  obtain rfl := hfn.symm
  simp only at hi ha ⊢
  have hd : i < (dateRange since untilD).length := by
    simpa using hi
  refine ⟨hd, ?_⟩
  rw [List.get_eq_getElem] at ha
  rw [List.getElem_map] at ha
  rw [List.get_eq_getElem]
  have hmem := locdataFor_allAnimals_mem _ _ _ _ ha
  exact occupantsOn_spec events animals _ nest a hmem

/-- Witness for the C4 theorem: a one-day, one-nest, one-animal world —
the animal occupies the nest on day 0, is alive there, and its latest
location-bearing event resolves to the nest. -/
theorem occupancy_excludes_dead_witness :
    (⟨⟨1, "n", true⟩, [⟨[⟨1, Sex.female⟩], [], [], [],
        [(AgeGroup.egg, 1)]⟩]⟩ : NestDays) ∈
      (tabulateLocations (fun _ _ => AgeGroup.egg) [⟨1, 0, 0, false, some 1⟩]
        [⟨1, "n", true⟩] [⟨1, Sex.female⟩] 0 0).2 ∧
    ∃ hd : 0 < (dateRange 0 0).length,
      (⟨1, Sex.female⟩ : Animal) ∈ [(⟨1, Sex.female⟩ : Animal)] ∧
      existedOn [⟨1, 0, 0, false, some 1⟩] 1
        ((dateRange 0 0).get ⟨0, hd⟩) = true ∧
      (∀ e ∈ [(⟨1, 0, 0, false, some 1⟩ : Event)], e.animal = 1 →
        e.removes = true → ¬ e.date ≤ (dateRange 0 0).get ⟨0, hd⟩) ∧
      ∃ le, latestLocationEvent [⟨1, 0, 0, false, some 1⟩] 1
          ((dateRange 0 0).get ⟨0, hd⟩) = some le ∧
        le.location = some 1 ∧ true = true :=
  ⟨by decide,
   occupancy_excludes_dead (fun _ _ => AgeGroup.egg) [⟨1, 0, 0, false, some 1⟩]
     [⟨1, "n", true⟩] [⟨1, Sex.female⟩] 0 0
     ⟨⟨1, "n", true⟩, [⟨[⟨1, Sex.female⟩], [], [], [], [(AgeGroup.egg, 1)]⟩]⟩
     (by decide) 0 (by decide) ⟨1, Sex.female⟩ (by decide)⟩

/-- A fully collected walk means every nest form was accepted. -/
theorem collectChanges_collected_all (nests : List NestInput)
    (cs : List (List NestAction))
    (h : collectChanges nests = CollectResult.collected cs) :
    ∀ n ∈ nests, ∃ acts,
      processNest n.day n.loc n.submitted = NestResult.actions acts := by
  induction nests generalizing cs with
  | nil => simp
  | cons n rest ih =>
    intro m hm
    simp only [collectChanges] at h
    rcases hn : processNest n.day n.loc n.submitted with e | errs | acts <;>
      rw [hn] at h
    · simp at h
    · simp at h
    · rcases hrest : collectChanges rest with errs2 | e2 | cs2 <;>
        rw [hrest] at h
      · simp at h
      · simp at h
      · rcases List.mem_cons.mp hm with rfl | hm2
        · exact ⟨acts, hn⟩
        · exact ih cs2 hrest m hm2

/-- If no nest form raises, the walk over the formset does not raise. -/
theorem collectChanges_no_crash (nests : List NestInput)
    (h : ∀ n ∈ nests, ∀ e,
      processNest n.day n.loc n.submitted ≠ NestResult.crashed e) :
    ∀ e, collectChanges nests ≠ CollectResult.crashedAt e := by
  induction nests with
  | nil =>
    intro e
    simp [collectChanges]
  | cons n rest ih =>
    intro e
    simp only [collectChanges]
    rcases hn : processNest n.day n.loc n.submitted with e2 | errs | acts
    · exact absurd hn (h n (List.mem_cons_self n rest) e2)
    · simp
    · rcases hrest : collectChanges rest with errs2 | e2 | cs2
      · simp
      · exact absurd hrest
          (ih (fun m hm e3 => h m (List.mem_cons_of_mem n hm) e3) e2)
      · simp

/-- C7: whenever any nest of the submission fails validation — at the
form level or against the current occupants — the whole submission ends
back at the re-editable initial view and nothing is committed: the
outcome is never a committed pass or a crash, so no event, animal or
nest-check row is saved. -/
theorem invalid_nest_blocks_commit (nests : List NestInput) (uf : UserForm)
    (hcnt : ∀ n ∈ nests, (initialCounts n.day).eggs = n.day.eggs.length)
    (hfail : (∃ n ∈ nests,
        nestCheckFormErrors (initialCounts n.day) n.submitted ≠ []) ∨
      (∃ n ∈ nests, ∃ errs,
        processNest n.day n.loc n.submitted = NestResult.invalid errs)) :
    (nestCheckPost nests uf = PostOutcome.initialFormInvalid ∨
      ∃ errs, nestCheckPost nests uf =
        PostOutcome.initialWithNestErrors errs) ∧
    (∀ rows, nestCheckPost nests uf ≠ PostOutcome.committed rows) ∧
    (∀ rows e, nestCheckPost nests uf ≠ PostOutcome.crashed rows e) := by
  by_cases hall : ∀ n ∈ nests,
    nestCheckFormErrors (initialCounts n.day) n.submitted = []
  · have hforms : (nests.all fun n =>
        nestCheckFormErrors (initialCounts n.day) n.submitted = []) = true := by
      rw [List.all_eq_true]
      intro n hn
      exact decide_eq_true (hall n hn)
    have hfail2 : ∃ n ∈ nests, ∃ errs,
        processNest n.day n.loc n.submitted = NestResult.invalid errs := by
      rcases hfail with ⟨n, hn, hne⟩ | h2
      · exact absurd (hall n hn) hne
      · exact h2
    have hnocrash : ∀ n ∈ nests, ∀ e,
        processNest n.day n.loc n.submitted ≠ NestResult.crashed e :=
      fun n hn =>
        processNest_not_crashed n.day n.loc n.submitted (hall n hn)
          (hcnt n hn)
    rcases hc : collectChanges nests with errs | e | cs
    · have hout : nestCheckPost nests uf =
          PostOutcome.initialWithNestErrors errs := by
        simp only [nestCheckPost]
        rw [if_pos hforms, hc]
      refine ⟨Or.inr ⟨errs, hout⟩, ?_, ?_⟩
      · intro rows
        rw [hout]
        simp
      · intro rows e
        rw [hout]
        simp
    · exact absurd hc (collectChanges_no_crash nests hnocrash e)
    · obtain ⟨n, hn, errs, hne⟩ := hfail2
      obtain ⟨acts, hacts⟩ := collectChanges_collected_all nests cs hc n hn
      rw [hacts] at hne
      simp at hne
  · have hnot : ¬((nests.all fun n =>
        nestCheckFormErrors (initialCounts n.day) n.submitted = []) = true) := by
      intro hx
      apply hall
      intro n hn
      exact of_decide_eq_true (List.all_eq_true.mp hx n hn)
    have hout : nestCheckPost nests uf = PostOutcome.initialFormInvalid := by
      simp only [nestCheckPost]
      rw [if_neg hnot]
    refine ⟨Or.inl hout, ?_, ?_⟩
    · intro rows
      rw [hout]
      simp
    · intro rows e
      rw [hout]
      simp

/-- Witness for the C7 theorem: a submission whose only nest reports a
lost chick is sent back to the initial view and commits nothing. -/
theorem invalid_nest_blocks_commit_witness :
    (∀ n ∈ [(⟨⟨[], [⟨3, Sex.unknown⟩], [], [], [(AgeGroup.chick, 1)]⟩, 5,
        ⟨0, 0⟩⟩ : NestInput)],
      (initialCounts n.day).eggs = n.day.eggs.length) ∧
    (∃ n ∈ [(⟨⟨[], [⟨3, Sex.unknown⟩], [], [], [(AgeGroup.chick, 1)]⟩, 5,
        ⟨0, 0⟩⟩ : NestInput)],
      nestCheckFormErrors (initialCounts n.day) n.submitted ≠ []) ∧
    ((nestCheckPost [⟨⟨[], [⟨3, Sex.unknown⟩], [], [], [(AgeGroup.chick, 1)]⟩,
          5, ⟨0, 0⟩⟩] ⟨some 7, "c", true⟩ = PostOutcome.initialFormInvalid ∨
      ∃ errs, nestCheckPost [⟨⟨[], [⟨3, Sex.unknown⟩], [], [],
          [(AgeGroup.chick, 1)]⟩, 5, ⟨0, 0⟩⟩] ⟨some 7, "c", true⟩ =
        PostOutcome.initialWithNestErrors errs) ∧
    (∀ rows, nestCheckPost [⟨⟨[], [⟨3, Sex.unknown⟩], [], [],
        [(AgeGroup.chick, 1)]⟩, 5, ⟨0, 0⟩⟩] ⟨some 7, "c", true⟩ ≠
      PostOutcome.committed rows) ∧
    (∀ rows e, nestCheckPost [⟨⟨[], [⟨3, Sex.unknown⟩], [], [],
        [(AgeGroup.chick, 1)]⟩, 5, ⟨0, 0⟩⟩] ⟨some 7, "c", true⟩ ≠
      PostOutcome.crashed rows e)) :=
  ⟨by decide, by decide,
   invalid_nest_blocks_commit
     [⟨⟨[], [⟨3, Sex.unknown⟩], [], [], [(AgeGroup.chick, 1)]⟩, 5, ⟨0, 0⟩⟩]
     ⟨some 7, "c", true⟩ (by decide) (Or.inl (by decide))⟩

/-- C8: a negative chick delta always fails form validation with the
cannot-lose-a-chick error, whatever the egg counts are, and any
submission containing such a nest form falls straight back to the initial
view. -/
theorem negative_delta_chicks_invalid (initial sub : Counts)
    (h : deltaChicks initial sub < 0) :
    NestErr.cannotLoseChick ∈ nestCheckFormErrors initial sub ∧
    nestCheckFormErrors initial sub ≠ [] ∧
    ∀ (day : LocData) (loc : Nat) (rest : List NestInput) (uf : UserForm),
      initialCounts day = initial →
      nestCheckPost (⟨day, loc, sub⟩ :: rest) uf =
        PostOutcome.initialFormInvalid := by
  have hmem : NestErr.cannotLoseChick ∈ nestCheckFormErrors initial sub := by
    simp [nestCheckFormErrors, h]
  refine ⟨hmem, ?_, ?_⟩
  · intro hnil
    rw [hnil] at hmem
    simp at hmem
  · intro day loc rest uf hinit
    have hne : nestCheckFormErrors (initialCounts day) sub ≠ [] := by
      rw [hinit]
      intro hnil
      rw [hnil] at hmem
      simp at hmem
    simp [nestCheckPost, List.all_cons, hne]

/-- Witness for the C8 theorem: losing the only chick fails whatever the
eggs say, and the whole submission bounces back to the initial view. -/
theorem negative_delta_chicks_invalid_witness :
    deltaChicks ⟨0, 1⟩ ⟨0, 0⟩ < 0 ∧
    (NestErr.cannotLoseChick ∈ nestCheckFormErrors ⟨0, 1⟩ ⟨0, 0⟩ ∧
     nestCheckFormErrors ⟨0, 1⟩ ⟨0, 0⟩ ≠ [] ∧
     ∀ (day : LocData) (loc : Nat) (rest : List NestInput) (uf : UserForm),
       initialCounts day = ⟨0, 1⟩ →
       nestCheckPost (⟨day, loc, ⟨0, 0⟩⟩ :: rest) uf =
         PostOutcome.initialFormInvalid) :=
  ⟨by decide, negative_delta_chicks_invalid ⟨0, 1⟩ ⟨0, 0⟩ (by decide)⟩

/-- C3: committing a zero-delta check saves zero events and exactly one
nest-check audit row, but committing a check that contains a hatch action
raises AttributeError — views.py line 494 evaluates `datetime.now()` on
the `datetime` module — and saves nothing at all, and committing a check
with a lay action saves the new animal row and then raises the same
AttributeError at line 506 before its birth event or the nest-check row
is saved. -/
theorem commit_zero_delta_vs_hatch_crash :
    nestCheckPost
        [⟨⟨[⟨10, Sex.unknown⟩], [], [], [], [(AgeGroup.egg, 1)]⟩, 5, ⟨1, 0⟩⟩]
        ⟨some 7, "checked", true⟩ =
      PostOutcome.committed [SavedRow.nestCheckRow 7 "checked"] ∧
    nestCheckPost
        [⟨⟨[⟨10, Sex.unknown⟩], [], [], [], [(AgeGroup.egg, 1)]⟩, 5, ⟨0, 1⟩⟩]
        ⟨some 7, "checked", true⟩ =
      PostOutcome.crashed [] PyErr.attributeError ∧
    nestCheckPost
        [⟨⟨[], [], [], [⟨1, Sex.male⟩, ⟨2, Sex.female⟩], []⟩, 5, ⟨1, 0⟩⟩]
        ⟨some 7, "checked", true⟩ =
      PostOutcome.crashed [SavedRow.newAnimal ⟨1, Sex.male⟩ ⟨2, Sex.female⟩]
        PyErr.attributeError := by
  exact ⟨rfl, rfl, rfl⟩

/-- C9: creating a pairing with a location and a recorder while the
"moved" status row is missing from the lookup table does not abort — it
prints a warning, skips the two dependent move events, and still saves
the pairing row. -/
theorem missing_moved_status_skips_events (db : PairingDB)
    (data : PairingData) (loc user : Nat)
    (hloc : data.location = some loc) (huser : data.enteredBy = some user)
    (hmiss : db.statusNames.contains movedEventName = false) :
    (pairingEntryFormValid db data).moveEvents = db.moveEvents ∧
    (pairingEntryFormValid db data).printed = db.printed ++
      ["Unable to create move events - no moved status type"] ∧
    (pairingEntryFormValid db data).pairings = db.pairings ++
      [⟨data.sire, data.dam, data.began, data.purpose, none⟩] := by
  have hmem : ¬("moved" ∈ db.statusNames) := by
    simpa [movedEventName] using hmiss
  simp [pairingEntryFormValid, hloc, huser, hmem, movedEventName]

/-- Witness for the C9 theorem: concrete pairing data against a status
table that lacks the "moved" row. -/
theorem missing_moved_status_skips_events_witness :
    ((⟨["note"], [], [], []⟩ : PairingDB).statusNames.contains
      movedEventName = false) ∧
    ((pairingEntryFormValid ⟨["note"], [], [], []⟩
        ⟨⟨1, Sex.male⟩, ⟨2, Sex.female⟩, 3, "breeding", some 4,
          some 9⟩).moveEvents = [] ∧
     (pairingEntryFormValid ⟨["note"], [], [], []⟩
        ⟨⟨1, Sex.male⟩, ⟨2, Sex.female⟩, 3, "breeding", some 4,
          some 9⟩).printed = [] ++
       ["Unable to create move events - no moved status type"] ∧
     (pairingEntryFormValid ⟨["note"], [], [], []⟩
        ⟨⟨1, Sex.male⟩, ⟨2, Sex.female⟩, 3, "breeding", some 4,
          some 9⟩).pairings = [] ++
       [⟨⟨1, Sex.male⟩, ⟨2, Sex.female⟩, 3, "breeding", none⟩]) :=
  ⟨by decide,
   missing_moved_status_skips_events ⟨["note"], [], [], []⟩
     ⟨⟨1, Sex.male⟩, ⟨2, Sex.female⟩, 3, "breeding", some 4, some 9⟩
     4 9 rfl rfl (by decide)⟩

end BirdColony
